import Mathlib

/-!
Formal model of `spotify_to_youtube.py` (Spotify playlist → YouTube downloader).

Strings are modelled as `List Char` (Python `str`); Python `None` becomes
`Option.none`.  Each definition mirrors one function of the source file:

* `sanitize_filename`   — `sanitize_filename` (lines 124–135)
* `pySplit`             — Python `str.split(sep)` for a non-empty separator,
                          used by `export_spotify_playlist` (lines 165, 190)
* `classifyUrl`         — the album/playlist URL dispatch of
                          `export_spotify_playlist` (lines 162–224)
* `exportPlaylistRows`  — the playlist pagination loop (lines 198–217)
* `get_youtube_link`    — `get_youtube_link` (lines 226–252)
* `writeCsvTable`       — the CSV written by `process_playlist` (lines 346–357)
* `download_songs`      — `download_songs` (lines 266–317)
* `process_playlist`    — the driver tail of `process_playlist` (lines 319–383)
-/

namespace SpotifyDl

/-! ### Filename sanitization (source lines 124–135)

Python:
```
invalid_chars = '<>:"/\\|?*'
for char in invalid_chars:
    filename = filename.replace(char, '_')
filename = filename.strip(' .')
if len(filename) > 100:
    filename = filename[:100]
```
-/

/-- The characters of the Python string `'<>:"/\\|?*'`, in source order. -/
def invalidChars : List Char := ['<', '>', ':', '"', '/', '\\', '|', '?', '*']

/-- Python `s.replace(old, new)` for single characters. -/
def replaceChar (old new : Char) (s : List Char) : List Char :=
  s.map fun c => if c = old then new else c

/-- The `for char in invalid_chars: filename = filename.replace(char, '_')` loop. -/
def replaceInvalid (s : List Char) : List Char :=
  invalidChars.foldl (fun acc c => replaceChar c '_' acc) s

/-- Membership test in the strip set of Python `strip(' .')`. -/
def isStripChar (c : Char) : Bool := c = ' ' || c = '.'

/-- Python `s.strip(' .')`: drop characters of the set from both ends. -/
def pyStrip (s : List Char) : List Char :=
  ((s.dropWhile isStripChar).reverse.dropWhile isStripChar).reverse

/-- `sanitize_filename` from the source: replace invalid characters by `'_'`,
strip boundary spaces/dots, then truncate to 100 characters (in that order). -/
def sanitize_filename (s : List Char) : List Char :=
  if 100 < (pyStrip (replaceInvalid s)).length
  then (pyStrip (replaceInvalid s)).take 100
  else pyStrip (replaceInvalid s)

/-- The effect of the whole replacement loop on a single character. -/
def sanChar (c : Char) : Char :=
  invalidChars.foldl (fun a ch => if a = ch then '_' else a) c

theorem foldl_replaceChar_cons (cs : List Char) (x : Char) (s : List Char) :
    cs.foldl (fun acc c => replaceChar c '_' acc) (x :: s)
      = (cs.foldl (fun a ch => if a = ch then '_' else a) x)
        :: cs.foldl (fun acc c => replaceChar c '_' acc) s := by
  induction cs generalizing x s with
  | nil => rfl
  | cons c cs ih =>
      simp only [List.foldl_cons, replaceChar, List.map_cons]
      exact ih _ _

theorem foldl_replaceChar_nil (cs : List Char) :
    cs.foldl (fun acc c => replaceChar c '_' acc) [] = [] := by
  induction cs with
  | nil => rfl
  | cons c cs ih => simpa [replaceChar] using ih

theorem replaceInvalid_eq_map (s : List Char) :
    replaceInvalid s = s.map sanChar := by
  induction s with
  | nil => simpa [replaceInvalid] using foldl_replaceChar_nil invalidChars
  | cons c rest ih =>
      simp only [replaceInvalid] at ih ⊢
      rw [foldl_replaceChar_cons, ih]
      rfl

theorem sanChar_of_mem {c : Char} (h : c ∈ invalidChars) : sanChar c = '_' := by
  fin_cases h <;> decide

theorem sanChar_of_not_mem {c : Char} (h : c ∉ invalidChars) : sanChar c = c := by
  simp only [invalidChars, List.mem_cons, List.not_mem_nil, or_false, not_or] at h
  obtain ⟨h1, h2, h3, h4, h5, h6, h7, h8, h9⟩ := h
  simp [sanChar, invalidChars, h1, h2, h3, h4, h5, h6, h7, h8, h9]

theorem mem_replaceInvalid_not_invalid {c : Char} {s : List Char}
    (h : c ∈ replaceInvalid s) : c ∉ invalidChars := by
  rw [replaceInvalid_eq_map] at h
  rcases List.mem_map.1 h with ⟨x, _, hx⟩
  by_cases hm : x ∈ invalidChars
  · rw [sanChar_of_mem hm] at hx
    subst hx
    decide
  · rw [sanChar_of_not_mem hm] at hx
    subst hx
    exact hm

theorem head_dropWhile_false {p : Char → Bool} {c : Char} :
    ∀ {s : List Char}, (s.dropWhile p).head? = some c → p c = false := by
  intro s
  induction s with
  | nil => intro h; cases h
  | cons x rest ih =>
      intro h
      rw [List.dropWhile_cons] at h
      by_cases hx : p x = true
      · rw [if_pos hx] at h
        exact ih h
      · rw [if_neg hx] at h
        cases h
        simpa using hx

theorem dropWhile_noop {p : Char → Bool} {s : List Char}
    (h : ∀ c, s.head? = some c → p c = false) : s.dropWhile p = s := by
  cases s with
  | nil => rfl
  | cons x rest =>
      rw [List.dropWhile_cons, if_neg]
      simp [h x rfl]

theorem head?_of_isPre {l₁ l₂ : List Char} {c : Char}
    (h : l₁ <+: l₂) (hc : l₁.head? = some c) : l₂.head? = some c := by
  rcases h with ⟨r, rfl⟩
  cases l₁ with
  | nil => cases hc
  | cons x t => cases hc; rfl

/-- Right strip only: `s` with trailing strip-characters removed. -/
def rstrip (s : List Char) : List Char :=
  (s.reverse.dropWhile isStripChar).reverse

theorem rstrip_isPre (s : List Char) : rstrip s <+: s := by
  have h : s.reverse.dropWhile isStripChar <:+ s.reverse :=
    List.dropWhile_suffix _
  rcases h with ⟨r, hr⟩
  refine ⟨r.reverse, ?_⟩
  have := congrArg List.reverse hr
  simpa [rstrip] using this

theorem rstrip_subset (s : List Char) : rstrip s ⊆ s :=
  (rstrip_isPre s).sublist.subset

theorem rstrip_length_le (s : List Char) : (rstrip s).length ≤ s.length :=
  (rstrip_isPre s).sublist.length_le

theorem rstrip_getLast {s : List Char} {c : Char}
    (h : (rstrip s).getLast? = some c) : isStripChar c = false := by
  rw [rstrip, List.getLast?_reverse] at h
  exact head_dropWhile_false h

theorem rstrip_noop {s : List Char}
    (h : ∀ c, s.getLast? = some c → isStripChar c = false) : rstrip s = s := by
  rw [rstrip, dropWhile_noop, List.reverse_reverse]
  intro c hc
  rw [List.head?_reverse] at hc
  exact h c hc

theorem pyStrip_eq (s : List Char) :
    pyStrip s = rstrip (s.dropWhile isStripChar) := rfl

theorem pyStrip_subset (s : List Char) : pyStrip s ⊆ s := by
  intro c hc
  exact (List.dropWhile_sublist _).subset (rstrip_subset _ hc)

theorem pyStrip_length_le (s : List Char) : (pyStrip s).length ≤ s.length :=
  le_trans (rstrip_length_le _) (List.Sublist.length_le (List.dropWhile_sublist _))

theorem pyStrip_head {s : List Char} {c : Char}
    (h : (pyStrip s).head? = some c) : isStripChar c = false := by
  rw [pyStrip_eq] at h
  exact head_dropWhile_false (head?_of_isPre (rstrip_isPre _) h)

theorem pyStrip_getLast {s : List Char} {c : Char}
    (h : (pyStrip s).getLast? = some c) : isStripChar c = false :=
  rstrip_getLast h

theorem pyStrip_noop {s : List Char}
    (hh : ∀ c, s.head? = some c → isStripChar c = false)
    (hl : ∀ c, s.getLast? = some c → isStripChar c = false) : pyStrip s = s := by
  rw [pyStrip_eq, dropWhile_noop hh]
  exact rstrip_noop hl

theorem head?_take_pos {n : Nat} (hn : 0 < n) (l : List Char) :
    (l.take n).head? = l.head? := by
  cases n with
  | zero => cases hn
  | succ m =>
      cases l with
      | nil => rfl
      | cons x rest => rw [List.take_succ_cons]; rfl

theorem sanitize_subset_strip (s : List Char) :
    sanitize_filename s ⊆ pyStrip (replaceInvalid s) := by
  unfold sanitize_filename
  by_cases h : 100 < (pyStrip (replaceInvalid s)).length
  · rw [if_pos h]; exact List.take_subset _ _
  · rw [if_neg h]; exact fun _ hc => hc

theorem sanitize_no_invalid {c : Char} {s : List Char}
    (h : c ∈ sanitize_filename s) : c ∉ invalidChars :=
  mem_replaceInvalid_not_invalid (pyStrip_subset _ (sanitize_subset_strip s h))

theorem sanitize_length_le (s : List Char) :
    (sanitize_filename s).length ≤ 100 := by
  unfold sanitize_filename
  by_cases h : 100 < (pyStrip (replaceInvalid s)).length
  · rw [if_pos h, List.length_take]; omega
  · rw [if_neg h]; omega

theorem sanitize_head_not_strip {c : Char} {s : List Char}
    (h : (sanitize_filename s).head? = some c) : isStripChar c = false := by
  unfold sanitize_filename at h
  by_cases h100 : 100 < (pyStrip (replaceInvalid s)).length
  · rw [if_pos h100, head?_take_pos (by omega)] at h
    exact pyStrip_head h
  · rw [if_neg h100] at h
    exact pyStrip_head h

theorem sanitize_of_short {s : List Char}
    (h : (pyStrip (replaceInvalid s)).length ≤ 100) :
    sanitize_filename s = pyStrip (replaceInvalid s) := by
  unfold sanitize_filename
  rw [if_neg (by omega)]

theorem replaceInvalid_noop {s : List Char}
    (h : ∀ c ∈ s, c ∉ invalidChars) : replaceInvalid s = s := by
  rw [replaceInvalid_eq_map]
  conv_rhs => rw [show s = s.map id from (List.map_id s).symm]
  exact List.map_congr_left fun c hc => sanChar_of_not_mem (h c hc)

/-- On an already-clean string (no invalid characters, no boundary
strip-characters, length within bound) the sanitizer is the identity. -/
theorem sanitize_of_clean {s : List Char}
    (hinv : ∀ c ∈ s, c ∉ invalidChars)
    (hh : ∀ c, s.head? = some c → isStripChar c = false)
    (hl : ∀ c, s.getLast? = some c → isStripChar c = false)
    (hlen : s.length ≤ 100) :
    sanitize_filename s = s := by
  unfold sanitize_filename
  rw [replaceInvalid_noop hinv, pyStrip_noop hh hl, if_neg (by omega)]

/-- On a string with no invalid characters, no leading strip-characters, and
length within bound, the sanitizer only strips the right end. -/
theorem sanitize_eq_rstrip {s : List Char}
    (hinv : ∀ c ∈ s, c ∉ invalidChars)
    (hh : ∀ c, s.head? = some c → isStripChar c = false)
    (hlen : s.length ≤ 100) :
    sanitize_filename s = rstrip s := by
  unfold sanitize_filename
  rw [replaceInvalid_noop hinv, pyStrip_eq, dropWhile_noop hh, if_neg]
  have := rstrip_length_le s
  omega

/-- The example collection name from the spec, `"My: Playlist / 2024"`. -/
def examplePlaylistName : List Char := "My: Playlist / 2024".data

/-- C4 counterexample: sanitization is not idempotent.  On the 101-character
input `'x' * 99 ++ " y"` the first pass strips nothing (the boundary characters
are `'x'` and `'y'`), then truncation to 100 characters exposes a trailing
space, which a second pass strips — so the second application is not a no-op
on the first one's output. -/
theorem sanitize_filename_idem_cex :
    sanitize_filename (sanitize_filename (List.replicate 99 'x' ++ [' ', 'y']))
      ≠ sanitize_filename (List.replicate 99 'x' ++ [' ', 'y']) := by
  decide

/-- C4 (amended): sanitization stabilises after two applications — for every
string `s`, `sanitize (sanitize (sanitize s)) = sanitize (sanitize s)`;
equivalently, `sanitize` is idempotent on any input whose truncation step does
not expose a trailing dot or space. -/
theorem sanitize_filename_stable_after_two (s : List Char) :
    sanitize_filename (sanitize_filename (sanitize_filename s)) =
      sanitize_filename (sanitize_filename s) := by
  set t := sanitize_filename s with ht
  have hinv : ∀ c ∈ t, c ∉ invalidChars := fun c hc => sanitize_no_invalid hc
  have hh : ∀ c, t.head? = some c → isStripChar c = false :=
    fun c hc => sanitize_head_not_strip hc
  have hlen : t.length ≤ 100 := sanitize_length_le s
  have h2 : sanitize_filename t = rstrip t := sanitize_eq_rstrip hinv hh hlen
  rw [h2]
  apply sanitize_of_clean
  · exact fun c hc => hinv c (rstrip_subset t hc)
  · exact fun c hc => hh c (head?_of_isPre (rstrip_isPre t) hc)
  · exact fun c hc => rstrip_getLast hc
  · exact le_trans (rstrip_length_le t) hlen

/-- C5 counterexample: the sanitized output can end in a space.  On the
101-character input `'a' * 99 ++ " b"` the strip step removes nothing, and the
subsequent truncation to 100 characters cuts exactly before the final `'b'`,
leaving a trailing space — refuting "no leading or trailing dots or spaces"
for every input. -/
theorem sanitize_filename_trailing_cex :
    (sanitize_filename (List.replicate 99 'a' ++ [' ', 'b'])).getLast? = some ' ' ∧
    isStripChar ' ' = true := by
  exact ⟨by decide, by decide⟩

/-- C5 (amended): for every input, `sanitize_filename` returns a string with
none of the characters `<>:"/\|?*`, of length at most 100, with no leading
dots or spaces; the absence of *trailing* dots/spaces is only guaranteed when
the replaced-and-stripped string already fits in 100 characters (truncation,
which runs after stripping, can expose a trailing dot or space). -/
theorem sanitize_filename_valid (s : List Char) :
    (∀ c ∈ sanitize_filename s, c ∉ invalidChars) ∧
    (sanitize_filename s).length ≤ 100 ∧
    (∀ c, (sanitize_filename s).head? = some c → isStripChar c = false) ∧
    ((pyStrip (replaceInvalid s)).length ≤ 100 →
      ∀ c, (sanitize_filename s).getLast? = some c → isStripChar c = false) :=
  ⟨fun _ hc => sanitize_no_invalid hc, sanitize_length_le s,
   fun _ hc => sanitize_head_not_strip hc,
   fun hlen c hc => pyStrip_getLast (by rwa [sanitize_of_short hlen] at hc)⟩

/-- Witness for C5 on the spec's own example `"My: Playlist / 2024"`: the
sanitized value is `"My_ Playlist _ 2024"`, and every hypothesis of
`sanitize_filename_valid` is discharged at this concrete input. -/
theorem sanitize_filename_valid_witness :
    sanitize_filename examplePlaylistName = "My_ Playlist _ 2024".data ∧
    (sanitize_filename examplePlaylistName).length ≤ 100 ∧
    isStripChar '4' = false :=
  ⟨by decide, (sanitize_filename_valid examplePlaylistName).2.1,
   (sanitize_filename_valid examplePlaylistName).2.2.2 (by decide) '4' (by decide)⟩

/-! ### URL dispatch of `export_spotify_playlist` (source lines 162–224)

Python:
```
if 'album/' in playlist_url:
    album_id = playlist_url.split('album/')[1].split('?')[0]
    ...
elif 'playlist/' in playlist_url:
    playlist_id = playlist_url.split('playlist/')[1].split('?')[0]
    ...
else: ...
```
-/

/-- Python `sep in s` (substring containment) for strings as char lists. -/
def hasMarker (sep : List Char) : List Char → Bool
  | [] => sep.isEmpty
  | c :: rest => sep.isPrefixOf (c :: rest) || hasMarker sep rest

/-- Python `s.split(sep)` for a non-empty separator: scan left to right,
cutting at each non-overlapping occurrence of `sep`. -/
def pySplit (sep : List Char) (s : List Char) : List (List Char) :=
  match sep, s with
  | [], s => [s]
  | _ :: _, [] => [[]]
  | c0 :: sr, c :: rest =>
    if (c0 :: sr).isPrefixOf (c :: rest) then
      [] :: pySplit (c0 :: sr) (rest.drop sr.length)
    else
      match pySplit (c0 :: sr) rest with
      | [] => [[c]]
      | h :: t => (c :: h) :: t
termination_by s.length
decreasing_by
  all_goals simp [List.length_drop]
  omega

/-- `url.split(sep)[1].split('?')[0]`, the id extraction of the source. -/
def markerId (sep url : List Char) : List Char :=
  (pySplit ['?'] ((pySplit sep url).getD 1 [])).getD 0 []

def albumMarker : List Char := "album/".data

def playlistMarker : List Char := "playlist/".data

/-- The branch taken by `export_spotify_playlist` together with the id it
extracts from the URL. -/
inductive ExportBranch where
  | album (id : List Char)
  | playlist (id : List Char)
  | invalid
deriving DecidableEq

/-- The `if 'album/' in url / elif 'playlist/' in url / else` dispatch. -/
def classifyUrl (url : List Char) : ExportBranch :=
  if hasMarker albumMarker url then .album (markerId albumMarker url)
  else if hasMarker playlistMarker url then .playlist (markerId playlistMarker url)
  else .invalid

/-- The text strictly before the first occurrence of `sep`. -/
def beforeFirst (sep : List Char) : List Char → List Char
  | [] => []
  | c :: rest => if sep.isPrefixOf (c :: rest) then [] else c :: beforeFirst sep rest

/-- The text strictly after the first occurrence of `sep`. -/
def afterFirst (sep : List Char) : List Char → List Char
  | [] => []
  | c :: rest =>
      if sep.isPrefixOf (c :: rest) then (c :: rest).drop sep.length
      else afterFirst sep rest

/-- The claim's description of the extracted album id: the text after the
first `album/`, truncated at the first `?`. -/
def claimAlbumId (url : List Char) : List Char :=
  (afterFirst albumMarker url).takeWhile (fun c => c != '?')

theorem pySplit_ne_nil (sep s : List Char) : pySplit sep s ≠ [] := by
  cases sep with
  | nil => simp [pySplit]
  | cons c0 sr =>
      cases s with
      | nil => simp [pySplit]
      | cons c rest =>
          simp only [pySplit]
          split
          · simp
          · split <;> simp

theorem pySplit_of_no_marker {sep : List Char} :
    ∀ {s : List Char}, hasMarker sep s = false → pySplit sep s = [s] := by
  intro s
  cases sep with
  | nil => intro _; simp [pySplit]
  | cons c0 sr =>
      induction s with
      | nil => intro _; simp [pySplit]
      | cons c rest ih =>
          intro h
          simp only [hasMarker, Bool.or_eq_false_iff] at h
          simp only [pySplit, h.1, Bool.false_eq_true, if_false]
          rw [ih h.2]

theorem pySplit_of_marker {sep : List Char} (hne : sep ≠ []) :
    ∀ {s : List Char}, hasMarker sep s = true →
      pySplit sep s = beforeFirst sep s :: pySplit sep (afterFirst sep s) := by
  intro s
  rcases sep with _ | ⟨c0, sr⟩
  · exact absurd rfl hne
  · induction s with
    | nil => intro h; simp [hasMarker] at h
    | cons c rest ih =>
        intro h
        by_cases hpre : (c0 :: sr).isPrefixOf (c :: rest) = true
        · simp only [pySplit, beforeFirst, afterFirst, hpre, if_true]
          rfl
        · simp only [hasMarker, Bool.or_eq_true] at h
          rcases h with h | h
          · exact absurd h hpre
          · simp only [pySplit, beforeFirst, afterFirst, hpre,
              Bool.false_eq_true, if_false]
            rw [ih h]

theorem pySplit_getD_one {sep : List Char} (hne : sep ≠ []) {s : List Char}
    (h : hasMarker sep s = true)
    (h1 : hasMarker sep (afterFirst sep s) = false) :
    (pySplit sep s).getD 1 [] = afterFirst sep s := by
  rw [pySplit_of_marker hne h, pySplit_of_no_marker h1]
  rfl

theorem pySplit_question_head :
    ∀ s : List Char, (pySplit ['?'] s).getD 0 [] = s.takeWhile (fun c => c != '?') := by
  intro s
  induction s with
  | nil => simp [pySplit]
  | cons c rest ih =>
      by_cases hc : c = '?'
      · subst hc
        simp [pySplit, List.isPrefixOf, List.takeWhile]
      · have hpre : (['?'].isPrefixOf (c :: rest)) = false := by
          simp [List.isPrefixOf]
          exact fun h => absurd h.symm hc
        simp only [pySplit, hpre, Bool.false_eq_true, if_false]
        rcases hsp : pySplit ['?'] rest with _ | ⟨h0, t⟩
        · exact absurd hsp (pySplit_ne_nil _ _)
        · rw [hsp] at ih
          simp only [List.getD, List.getElem?_cons_zero, Option.getD_some] at ih
          subst ih
          have hb : (c != '?') = true := by simp [hc]
          simp [List.takeWhile, hb]

/-- C10 counterexample: on a URL in which `album/` occurs twice, the code's
`split('album/')[1]` stops at the *second* occurrence of `album/`, so the
extracted id is not "the text after the first `album/` up to the first `?`".
On `"album/aalbum/playlist/b?x"` the code extracts `"a"` while the claim's
description yields `"aalbum/playlist/b"`. -/
theorem url_dispatch_cex :
    classifyUrl "album/aalbum/playlist/b?x".data = .album ['a'] ∧
    claimAlbumId "album/aalbum/playlist/b?x".data = "aalbum/playlist/b".data ∧
    (['a'] : List Char) ≠ "aalbum/playlist/b".data := by
  refine ⟨?_, by decide, by decide⟩
  simp [classifyUrl, markerId, albumMarker, hasMarker, pySplit, List.isPrefixOf]

/-- C10 (amended): for every URL containing both `album/` and `playlist/`,
the album marker is checked first and the playlist branch is never reached;
the extracted id is `split('album/')[1].split('?')[0]`, i.e. the segment
between the first occurrence of `album/` and the following occurrence of
`album/` (or the end of the string), truncated at its first `?`.  When
`album/` occurs only once — no further `album/` after the first — this is
exactly the text after the first `album/` up to the first `?`, as claimed. -/
theorem url_dispatch_album_first (url : List Char)
    (ha : hasMarker albumMarker url = true)
    (hp : hasMarker playlistMarker url = true) :
    classifyUrl url = .album (markerId albumMarker url) ∧
    (hasMarker albumMarker (afterFirst albumMarker url) = false →
      markerId albumMarker url = claimAlbumId url) := by
  refine ⟨by simp [classifyUrl, ha], fun h1 => ?_⟩
  have := hp
  unfold markerId
  rw [pySplit_getD_one (by decide) ha h1, pySplit_question_head]
  rfl

/-- Witness for C10 on `"host/album/AB?x=playlist/99"`, a URL containing both
markers in which `album/` occurs once: the album branch is taken with id
`"AB"`, which coincides with the claim's description. -/
theorem url_dispatch_album_first_witness :
    classifyUrl "host/album/AB?x=playlist/99".data = .album "AB".data ∧
    claimAlbumId "host/album/AB?x=playlist/99".data = "AB".data := by
  have h := url_dispatch_album_first "host/album/AB?x=playlist/99".data
    (by decide) (by decide)
  have h2 := h.2 (by decide)
  refine ⟨?_, by decide⟩
  rw [h.1, h2]
  decide

/-! ### Playlist pagination (source lines 198–217)

Python:
```
tracks = []
results = sp.playlist_tracks(playlist_id)
tracks.extend(results['items'])
while results['next']:
    results = sp.next(results)
    tracks.extend(results['items'])
track_data = []
for track in tracks:
    if track['track']:
        track_data.append({'Track Name': ..., 'Artist Name(s)': ', '.flatten(...)})
```
The service's successive page responses are modelled as a list of pages;
a response carries a `next` cursor exactly when further pages remain. -/

structure SpotifyTrack where
  name : String
  artists : List String
deriving DecidableEq

/-- One entry of a playlist page; `track` is `none` for a null/deleted entry. -/
structure PlaylistItem where
  track : Option SpotifyTrack
deriving DecidableEq

/-- One row of the exported table: `{'Track Name': ..., 'Artist Name(s)': ...}`. -/
structure TrackRow where
  trackName : String
  artistNames : String
deriving DecidableEq

/-- `', '.flatten([artist['name'] for artist in ...])`. -/
def joinArtists (artists : List String) : String := String.intercalate ", " artists

def rowOfTrack (t : SpotifyTrack) : TrackRow := ⟨t.name, joinArtists t.artists⟩

/-- The `tracks.extend(...)` / `while results['next']` accumulation loop. -/
def fetchAllItems : List (List PlaylistItem) → List PlaylistItem
  | [] => []
  | page :: rest => page ++ fetchAllItems rest

/-- The playlist branch of `export_spotify_playlist`: paginate, then keep the
rows of the non-null entries in order. -/
def exportPlaylistRows (pages : List (List PlaylistItem)) : List TrackRow :=
  (fetchAllItems pages).filterMap (fun it => it.track.map rowOfTrack)

theorem fetchAllItems_eq_join (pages : List (List PlaylistItem)) :
    fetchAllItems pages = pages.flatten := by
  induction pages with
  | nil => rfl
  | cons page rest ih => simp [fetchAllItems, ih]

theorem length_filterMap_track (l : List PlaylistItem) :
    (l.filterMap PlaylistItem.track).length
      = l.countP (fun it => it.track.isSome) := by
  induction l with
  | nil => rfl
  | cons it rest ih =>
      rcases h : it.track with _ | t <;>
        simp [List.filterMap_cons, List.countP_cons, h, ih]

/-- C1: the playlist export preserves the service's order across all pages —
the produced rows are exactly the rows of the concatenation of the pages in
fetch order, with null entries excluded — and the row count equals the number
of non-null entries. -/
theorem export_playlist_rows_spec (pages : List (List PlaylistItem)) :
    exportPlaylistRows pages
      = (pages.flatten.filterMap PlaylistItem.track).map rowOfTrack ∧
    (exportPlaylistRows pages).length
      = pages.flatten.countP (fun it => it.track.isSome) := by
  have h : exportPlaylistRows pages
      = (pages.flatten.filterMap PlaylistItem.track).map rowOfTrack := by
    rw [exportPlaylistRows, fetchAllItems_eq_join, List.map_filterMap]
  exact ⟨h, by rw [h, List.length_map, length_filterMap_track]⟩

/-! ### Match Resolver — `get_youtube_link` (source lines 226–252)

Python:
```
query = f"{song_name} lyrics"
if artist:
    query += f" {artist}"
try:
    ... youtube.search().list(q=query, ...) ...
    response = request.execute()
    if response['items']:
        video_id = response['items'][0]['id']['videoId']
        video_title = response['items'][0]['snippet']['title']
        youtube_url = f"https://www.youtube.com/watch?v={video_id}"
        return youtube_url, video_title
except Exception as e:
    print(f"Error searching for '{query}': {e}")
return None, None
```
-/

/-- The outcome of the video-service call for one query: either the returned
hit list (`response['items']`, each hit a `(videoId, title)` pair), or an
exception raised during the request (network/auth/quota). -/
inductive SearchOutcome where
  | hits (items : List (String × String))
  | err (msg : String)

/-- `f"{song_name} lyrics"`, plus `f" {artist}"` when `artist` is truthy
(non-`None` and non-empty). -/
def buildQuery (songName : String) (artist : Option String) : String :=
  match artist with
  | some a => if a = "" then songName ++ " lyrics" else songName ++ " lyrics" ++ " " ++ a
  | none => songName ++ " lyrics"

/-- The canonical watch URL built from a video id. -/
def watchUrl (videoId : String) : String := "https://www.youtube.com/watch?v=" ++ videoId

/-- `get_youtube_link`, with the network call abstracted as the oracle
`search` from query strings to outcomes. -/
def get_youtube_link (songName : String) (artist : Option String)
    (search : String → SearchOutcome) : Option String × Option String :=
  match search (buildQuery songName artist) with
  | .hits ((videoId, title) :: _) => (some (watchUrl videoId), some title)
  | .hits [] => (none, none)
  | .err _ => (none, none)

/-- C3: `get_youtube_link` is a total function (it never propagates a failure
to the pipeline): on a request/auth/quota error, and on zero hits, it returns
`(none, none)`; on at least one hit it returns the canonical watch URL built
from the first hit's video id together with that hit's title. -/
theorem get_youtube_link_spec (songName : String) (artist : Option String)
    (search : String → SearchOutcome) :
    (∀ msg, search (buildQuery songName artist) = .err msg →
        get_youtube_link songName artist search = (none, none)) ∧
    (search (buildQuery songName artist) = .hits [] →
        get_youtube_link songName artist search = (none, none)) ∧
    (∀ videoId title rest,
        search (buildQuery songName artist) = .hits ((videoId, title) :: rest) →
          get_youtube_link songName artist search
            = (some (watchUrl videoId), some title)) := by
  refine ⟨fun msg h => ?_, fun h => ?_, fun videoId title rest h => ?_⟩ <;>
    simp [get_youtube_link, h]

/-- Witness for C3 at a concrete track and a concrete one-hit oracle. -/
theorem get_youtube_link_spec_witness :
    get_youtube_link "Song" (some "Artist")
        (fun _ => .hits [("abc123", "Song (Lyrics)")])
      = (some "https://www.youtube.com/watch?v=abc123", some "Song (Lyrics)") ∧
    get_youtube_link "Song" (some "Artist") (fun _ => .err "quotaExceeded")
      = (none, none) ∧
    get_youtube_link "Song" none (fun _ => .hits []) = (none, none) :=
  ⟨(get_youtube_link_spec "Song" (some "Artist") _).2.2 "abc123" "Song (Lyrics)" [] rfl,
   (get_youtube_link_spec "Song" (some "Artist") _).1 "quotaExceeded" rfl,
   (get_youtube_link_spec "Song" none _).2.1 rfl⟩

/-! ### Dataset Builder — the CSV written by `process_playlist` (lines 346–357)

Python:
```
df[['YouTube Link', 'YouTube Video Title']] = df.progress_apply(
    lambda row: pd.Series(get_youtube_link(row['Track Name'], row['Artist Name(s)'])), axis=1)
final_output = os.path.join(playlist_folder, "spotify_playlist_with_youtube.csv")
df.to_csv(final_output, index=False)
```
-/

/-- One row of the final DataFrame: the two exported columns plus the two
columns added by the search, in insertion order. -/
structure MatchRow where
  trackName : String
  artistNames : String
  videoUrl : Option String
  videoTitle : Option String
deriving DecidableEq

/-- A `to_csv` cell for an optional value: `None`/NaN serializes as the empty
cell (pandas default `na_rep=''`), a present string as itself. -/
def csvCell : Option String → String
  | none => ""
  | some v => v

/-- One CSV data row, in the DataFrame's column order. -/
def csvRow (m : MatchRow) : List String :=
  [m.trackName, m.artistNames, csvCell m.videoUrl, csvCell m.videoTitle]

/-- The rows written by `df.to_csv(..., index=False)`: the header line, then
one line per match in DataFrame order. -/
def writeCsvTable (results : List MatchRow) : List (List String) :=
  ["Track Name", "Artist Name(s)", "YouTube Link", "YouTube Video Title"]
    :: results.map csvRow

/-- C2: the written CSV consists of the fixed four-column header, one row per
source track in original order (row `i + 1` of the file is row `i` of the
ResultSet), and an absent link or title serializes as an empty cell — never
the literal `"None"` or `"null"`. -/
theorem csv_table_spec (results : List MatchRow) :
    (writeCsvTable results)[0]?
      = some ["Track Name", "Artist Name(s)", "YouTube Link", "YouTube Video Title"] ∧
    (writeCsvTable results).length = results.length + 1 ∧
    (∀ i : Nat, (writeCsvTable results)[i + 1]? = (results[i]?).map csvRow) ∧
    (∀ m : MatchRow, m.videoUrl = none →
      csvRow m = [m.trackName, m.artistNames, "", csvCell m.videoTitle]) ∧
    (∀ m : MatchRow, m.videoTitle = none →
      csvRow m = [m.trackName, m.artistNames, csvCell m.videoUrl, ""]) ∧
    ("" : String) ≠ "None" ∧ ("" : String) ≠ "null" := by
  refine ⟨by simp [writeCsvTable], by simp [writeCsvTable], fun i => ?_, fun m hm => ?_,
    fun m hm => ?_, by decide, by decide⟩
  · simp [writeCsvTable]
  · simp [csvRow, hm, csvCell]
  · simp [csvRow, hm, csvCell]

/-- A two-row ResultSet, the second track unresolved. -/
def sampleResults : List MatchRow :=
  [⟨"Song A", "Artist A", some "https://www.youtube.com/watch?v=a1", some "Song A (Lyrics)"⟩,
   ⟨"Song B", "Artist B", none, none⟩]

/-- Witness for C2 on `sampleResults`: the unresolved row serializes with two
empty cells, and the file has header plus two rows. -/
theorem csv_table_spec_witness :
    (writeCsvTable sampleResults)[2]? = some ["Song B", "Artist B", "", ""] ∧
    (writeCsvTable sampleResults).length = 3 := by
  have h := csv_table_spec sampleResults
  refine ⟨?_, h.2.1⟩
  rw [h.2.2.1 1]
  have hrow := h.2.2.2.1 ⟨"Song B", "Artist B", none, none⟩ rfl
  simp only [sampleResults, List.getElem?_cons_succ, List.getElem?_cons_zero,
    Option.map_some', hrow]
  rfl

/-! ### Fetch Executor — `download_songs` (source lines 266–317)

Python:
```
if not links or not playlist_folder: ... return False
original_dir = os.getcwd()
os.chdir(playlist_folder)
try:
    subprocess.run(cmd, check=True)
    ...
    return True
except subprocess.CalledProcessError as e: ... return False
except KeyboardInterrupt: ... return False
finally:
    os.chdir(original_dir)
```
-/

/-- Process state visible to `download_songs`: the working directory. -/
structure ProcState where
  cwd : String
deriving DecidableEq

/-- Effect of `os.chdir(target)` on the current directory (absolute targets
replace it, relative targets resolve against it). -/
def chdirResolve (cwd target : String) : String :=
  if target.data.head? = some '/' then target else cwd ++ "/" ++ target

/-- Outcome of the blocking `subprocess.run` call: normal exit, non-zero exit
status (`CalledProcessError`), or user interrupt (`KeyboardInterrupt`). -/
inductive RunEvent where
  | ok
  | procError (exitCode : Nat)
  | interrupt
deriving DecidableEq

/-- `download_songs`: guard clause, `os.chdir` into the playlist folder, run
the external utility (outcome supplied by `ev`), and — in `finally` — restore
the saved original directory on every exit path. -/
def download_songs (links : List String) (playlistFolder : String)
    (st : ProcState) (ev : RunEvent) : Bool × ProcState :=
  if links.isEmpty || (playlistFolder == "") then (false, st)
  else
    let originalDir := st.cwd
    let working : ProcState := ⟨chdirResolve st.cwd playlistFolder⟩
    let result := match ev with
      | .ok => true
      | .procError _ => false
      | .interrupt => false
    (result, { working with cwd := originalDir })

/-- C7: the working directory after `download_songs` equals its value before
the call on every exit path — early guard return, successful download,
utility failure, and user interrupt (the `finally` block restores it). -/
theorem download_songs_restores_cwd (links : List String)
    (playlistFolder : String) (st : ProcState) (ev : RunEvent) :
    ((download_songs links playlistFolder st ev).2).cwd = st.cwd := by
  unfold download_songs
  split
  · rfl
  · cases ev <;> rfl

/-- C8 counterexample: on an empty url list `download_songs` returns the
boolean failure indicator `False` — exactly the value it returns when the
utility exits non-zero — rather than a distinct non-error empty report. -/
theorem download_songs_empty_cex :
    download_songs [] "My Playlist" ⟨"/home/user"⟩ .ok = (false, ⟨"/home/user"⟩) ∧
    (download_songs ["https://www.youtube.com/watch?v=a1"] "My Playlist"
        ⟨"/home/user"⟩ (.procError 1)).1 = false := by
  exact ⟨rfl, rfl⟩

/-- C8 (amended): on an empty url list `download_songs` does return
immediately — the utility is not invoked and the process state is untouched —
but its result is `False`, the same failure indicator as an error outcome,
not a distinct empty-report success. -/
theorem download_songs_empty_returns_false (playlistFolder : String)
    (st : ProcState) (ev : RunEvent) :
    download_songs [] playlistFolder st ev = (false, st) := rfl

/-! ### Pipeline Driver — `process_playlist` (source lines 319–383) -/

/-- Terminal outcome of one `process_playlist` run, one constructor per
`return` site of the source. -/
inductive RunOutcome where
  | exportFailed
  | folderFailed
  | noLinks
  | download (ok : Bool)
deriving DecidableEq

/-- Result of a driver run: its terminal outcome, the CSV file contents when
the run reached the write at line 357, and the final process state. -/
structure DriverResult where
  outcome : RunOutcome
  csv : Option (List (List String))
  finalState : ProcState
deriving DecidableEq

/-- `process_playlist`, with its collaborators abstracted: `export?` is the
result of `export_spotify_playlist` (`none` models its `(None, None)` error
return), `folderOk` whether `os.makedirs` succeeded, `search` the
video-search oracle, and `ev` the outcome of the download subprocess.
Mirrors the source order: export, folder creation, per-track search in row
order, CSV write, then either the download call on the non-null links or the
distinct "No YouTube links found" return. -/
def process_playlist (export? : Option (List TrackRow × String)) (folderOk : Bool)
    (search : String → SearchOutcome) (st : ProcState) (ev : RunEvent) :
    DriverResult :=
  match export? with
  | none => ⟨.exportFailed, none, st⟩
  | some (rows, playlistName) =>
      if folderOk then
        let playlistFolder := String.mk (sanitize_filename playlistName.data)
        let results := rows.map (fun r =>
          let link := get_youtube_link r.trackName (some r.artistNames) search
          MatchRow.mk r.trackName r.artistNames link.1 link.2)
        let table := writeCsvTable results
        let links := results.filterMap MatchRow.videoUrl
        if links.isEmpty then ⟨.noLinks, some table, st⟩
        else
          let d := download_songs links playlistFolder st ev
          ⟨.download d.1, some table, d.2⟩
      else ⟨.folderFailed, none, st⟩

/-- C9: when no track resolves to a link, the driver terminates in the
distinct `noLinks` outcome — not a crash, not a `download` outcome — the
download stage is never invoked (the process state is untouched), and the
CSV has still been written. -/
theorem driver_no_links (rows : List TrackRow) (playlistName : String)
    (search : String → SearchOutcome) (st : ProcState) (ev : RunEvent)
    (h : ∀ r ∈ rows,
      (get_youtube_link r.trackName (some r.artistNames) search).1 = none) :
    (process_playlist (some (rows, playlistName)) true search st ev).outcome
        = .noLinks ∧
    (process_playlist (some (rows, playlistName)) true search st ev).finalState
        = st ∧
    (process_playlist (some (rows, playlistName)) true search st ev).csv ≠ none ∧
    ∀ ok, (process_playlist (some (rows, playlistName)) true search st ev).outcome
        ≠ .download ok := by
  have hnil : (rows.map (fun r =>
      let link := get_youtube_link r.trackName (some r.artistNames) search
      MatchRow.mk r.trackName r.artistNames link.1 link.2)).filterMap
        MatchRow.videoUrl = [] := by
    rw [List.filterMap_eq_nil_iff]
    intro m hm
    rcases List.mem_map.1 hm with ⟨r, hr, rfl⟩
    exact h r hr
  simp [process_playlist, if_true, hnil, List.isEmpty_nil, if_pos]

/-- Witness for C9: a one-track playlist against an oracle that returns zero
hits for every query. -/
theorem driver_no_links_witness :
    (process_playlist (some ([⟨"Song A", "Artist A"⟩], "My Playlist")) true
        (fun _ => .hits []) ⟨"/work"⟩ .ok).outcome = .noLinks ∧
    (process_playlist (some ([⟨"Song A", "Artist A"⟩], "My Playlist")) true
        (fun _ => .hits []) ⟨"/work"⟩ .ok).finalState = ⟨"/work"⟩ := by
  have h := driver_no_links [⟨"Song A", "Artist A"⟩] "My Playlist"
    (fun _ => .hits []) ⟨"/work"⟩ .ok (fun r _ => rfl)
  exact ⟨h.1, h.2.1⟩

end SpotifyDl
